import Mathlib

/-!
Verification development for the StackHut invocation bridge
(src/stackhut/commands/run_command.py, class RunCmd).

The bridge accepts one inbound JSON-RPC envelope, normalizes it, drives a
contract dispatcher that may issue nested calls into an external
implementation subprocess over a pair of named channels (fifos), and
performs unconditional cleanup.

Shallow embedding conventions:
- JSON documents are the inductive type JVal; JSON numbers are modelled as
  integers (no claim under study depends on non-integral numbers).
- Python dicts are association lists with first-occurrence lookup and
  update-in-place-or-append insertion (Python 3.7+ dict ordering).
- Python exceptions are the inductive type PyErr; fallible code returns
  Except PyErr.
- uuid.uuid4 is modelled as an explicit supply of fresh strings
  (a function Nat → String together with a consumption counter),
  consumed exactly where the source calls uuid.uuid4().
- The filesystem is a record of the set of existing file paths and the set
  of existing directory paths (working directory of the bridge).
-/

/-- A JSON document, as produced by Python json.loads.  Numbers are
modelled as integers. -/
inductive JVal where
  | jnull
  | jbool (b : Bool)
  | jnum (n : Int)
  | jstr (s : String)
  | jarr (xs : List JVal)
  | jobj (fields : List (String × JVal))

/-- A Python dict holding JSON values: association list, first occurrence
of a key is the binding (Python dicts have unique keys; parsed JSON obeys
this). -/
abbrev Dict := List (String × JVal)

/-- Dict lookup: d[k] when present. -/
def dlookup : Dict → String → Option JVal
  | [], _ => none
  | (k, v) :: rest, key => if k = key then some v else dlookup rest key

/-- Dict assignment d[k] = v: update the existing binding in place
(preserving insertion order) or append a new binding at the end, exactly
like a Python dict. -/
def dinsert : Dict → String → JVal → Dict
  | [], key, val => [(key, val)]
  | (k, v) :: rest, key, val =>
    if k = key then (k, val) :: rest else (k, v) :: dinsert rest key val

/-- The namespace separator of qualified method names. -/
def dotChar : Char := '.'

mutual
/-- Python repr() of a JSON value (CPython rendering: None/True/False,
single-quoted strings, bracketed containers). -/
def pyRepr : JVal → String
  | .jnull => "None"
  | .jbool true => "True"
  | .jbool false => "False"
  | .jnum n => toString n
  | .jstr s => "\x27" ++ s ++ "\x27"
  | .jarr xs => "[" ++ pyReprList xs ++ "]"
  | .jobj fs => "\x7b" ++ pyReprFields fs ++ "\x7d"

/-- Comma-joined reprs of list elements. -/
def pyReprList : List JVal → String
  | [] => ""
  | [x] => pyRepr x
  | x :: y :: xs => pyRepr x ++ ", " ++ pyReprList (y :: xs)

/-- Comma-joined reprs of dict entries. -/
def pyReprFields : List (String × JVal) → String
  | [] => ""
  | [(k, v)] => "\x27" ++ k ++ "\x27: " ++ pyRepr v
  | (k, v) :: f :: fsx => "\x27" ++ k ++ "\x27: " ++ pyRepr v ++ ", " ++ pyReprFields (f :: fsx)
end

/-- Python str() of a JSON value: identity on strings, repr otherwise. -/
def pyStr : JVal → String
  | .jstr s => s
  | v => pyRepr v

/-- Python equality test of a JSON value against an int constant
(int compares by value; bool compares as 0/1; other types are never
equal to an int). -/
def pyIntEq : JVal → Int → Bool
  | .jnum n, c => n = c
  | .jbool b, c => (if b then (1 : Int) else 0) = c
  | _, _ => false

-- Module constants of run_command.py.

/-- REQ_FIFO = 'req.json' -/
def REQ_FIFO : String := "req.json"

/-- RESP_FIFO = 'resp.json' -/
def RESP_FIFO : String := "resp.json"

/-- Modelled from the spec: utils.LOGFILE, the fixed-path log artifact
file read at shutdown and removed at cleanup (the utils module is not in
src/; only the fixed path matters). -/
def LOGFILE : String := "service.log"

/-- Modelled from the spec: utils.STACKHUT_DIR, the fixed root under
which per-task scratch directories are created (the utils module is not
in src/; only the fixed path matters). -/
def STACKHUT_DIR : String := ".stackhut"

/-- Modelled from the spec: barrister.ERR_METHOD_NOT_FOUND, the
contract library's reserved "method not found" code (JSON-RPC 2.0
reserved value; the barrister library is not in src/ and only equality
against this constant matters). -/
def ERR_METHOD_NOT_FOUND : Int := -32601

/-- default_service = 'Default' (local constant of _startup). -/
def default_service : String := "Default"

/-- os.path.join for the one-level joins used by the source. -/
def pathJoin (a b : String) : String := a ++ "/" ++ b

/-- Number of namespace separators in a method name. -/
def countDots (s : String) : Nat := (s.data.filter (fun c => c == dotChar)).length

/-- The Python exceptions (and the utils error classes) that the bridge
code can raise.  parseError is utils.ParseError, the spec's
MalformedRequestError; nonZeroExitError is utils.NonZeroExitError, the
spec's SubprocessError; serverError is utils.ServerError, covering the
spec's MethodNotFoundError and RemoteError. -/
inductive PyErr where
  | parseError
  | nonZeroExitError (returncode : Int) (output : Option String)
  | serverError (code : JVal) (msg : JVal)
  | keyError (key : String)
  | typeError
  | attributeError
  | fileNotFoundError (path : String)
  | fileExistsError (path : String)
  | isADirectoryError (path : String)

/-- Modelled from the spec: the persistent Store collaborator
(getRequest / setTaskId / putResponse / putFile; utils.CloudStore and
utils.LocalStore are not in src/).  Only the mutations the bridge
performs are recorded. -/
structure Store where
  taskId : Option JVal := none
  response : Option JVal := none
  savedFiles : List String := []

/-- The filesystem surface touched by the bridge: the set of existing
file paths and the set of existing directory paths (both lists read as
sets; a real filesystem has no duplicate paths), plus whether the
stack's shim code is currently materialized. -/
structure FS where
  files : List String := []
  dirs : List String := []
  shimPresent : Bool := false

/-- os.path.exists: true if the path names an existing file or
directory. -/
def FS.existsPath (fs : FS) (p : String) : Bool :=
  fs.files.contains p || fs.dirs.contains p

/-- os.remove: delete the file at p; FileNotFoundError when the path
does not exist, IsADirectoryError when it names a directory. -/
def FS.removeFile (fs : FS) (p : String) : Except PyErr FS :=
  if fs.files.contains p then
    .ok { fs with files := fs.files.filter (fun q => q != p) }
  else if fs.dirs.contains p then .error (.isADirectoryError p)
  else .error (.fileNotFoundError p)

/-- The source's guarded removal idiom:
os.remove(p) if os.path.exists(p) else None. -/
def FS.removeIfExists (fs : FS) (p : String) : Except PyErr FS :=
  if fs.existsPath p then fs.removeFile p else .ok fs

/-- os.mkfifo: create a named channel endpoint; FileExistsError when the
path already exists. -/
def FS.mkfifo (fs : FS) (p : String) : Except PyErr FS :=
  if fs.existsPath p then .error (.fileExistsError p)
  else .ok { fs with files := p :: fs.files }

/-- The source's guarded directory creation idiom:
os.mkdir(p) if not os.path.exists(p) else None. -/
def FS.mkdirIfMissing (fs : FS) (p : String) : FS :=
  if fs.existsPath p then fs else { fs with dirs := p :: fs.dirs }

/-- How a subprocess stream argument is wired (CPython subprocess
module): inherited from the parent, captured through a pipe, or (for
stderr) merged into stdout. -/
inductive Redirect where
  | inherit
  | pipe
  | toStdout
deriving DecidableEq

/-- The fields of a subprocess.Popen object the bridge reads after
p.wait(). -/
structure ProcResult where
  returncode : Int
  stdout : Option String

/-- subprocess.Popen, restricted to what the bridge observes.  exitCode
and childOutput describe the external process's behaviour (an input of
the model).  CPython semantics: p.stdout is a captured stream only when
stdout=PIPE was passed; with the default (inherit) it is None, whatever
the stderr wiring is. -/
def Popen (exitCode : Int) (childOutput : String)
    (stdoutArg : Redirect) (_stderrArg : Redirect) : ProcResult :=
  { returncode := exitCode,
    stdout := if stdoutArg = .pipe then some childOutput else none }

/-- gen_id(d, v): d[v] = str(uuid.uuid4()) if v not in d else str(d[v]).
fresh is the uuid.uuid4 supply and k the next unconsumed index; the
result pairs the updated dict with the next index (uuid4 is consumed
only when the key is absent, as in the source). -/
def gen_id (fresh : Nat → String) (k : Nat) (d : Dict) (v : String) : Dict × Nat :=
  match dlookup d v with
  | none => (dinsert d v (.jstr (fresh k)), k + 1)
  | some x => (dinsert d v (.jstr (pyStr x)), k)

/-- gen_id applied to an arbitrary JSON value, as _startup does to the
whole parsed payload: on a dict it is gen_id; on every non-dict value
CPython raises TypeError (membership test on int/bool/None is a
TypeError; on str/list the subsequent string-keyed indexing or item
assignment is a TypeError). -/
def gen_idOnVal (fresh : Nat → String) (k : Nat) (j : JVal) (v : String) :
    Except PyErr (Dict × Nat) :=
  match j with
  | .jobj d => .ok (gen_id fresh k d v)
  | _ => .error .typeError

/-- Step 1 of _make_json_rpc: if 'jsonrpc' not in req, req['jsonrpc'] = "2.0". -/
def jsonrpcStep (d : Dict) : Dict :=
  if (dlookup d "jsonrpc").isSome then d else dinsert d "jsonrpc" (.jstr "2.0")

/-- Step 3 of _make_json_rpc: if req['method'].find('.') < 0, prefix the
method with the default service name.  A missing method key raises
KeyError; a non-string method has no .find and raises AttributeError. -/
def methodStep (d : Dict) : Except PyErr Dict :=
  match dlookup d "method" with
  | some (.jstr m) =>
    if dotChar ∈ m.data then .ok d
    else .ok (dinsert d "method" (.jstr (default_service ++ "." ++ m)))
  | some _ => .error .attributeError
  | none => .error (.keyError "method")

/-- _make_json_rpc(req): set jsonrpc to "2.0" when absent, ensure an id
via gen_id, and prefix the method with the default service name when it
contains no namespace separator.  Non-dict elements raise TypeError
exactly as gen_idOnVal does. -/
def make_json_rpc (fresh : Nat → String) (k : Nat) (req : JVal) :
    Except PyErr (JVal × Nat) :=
  match req with
  | .jobj d0 =>
    match methodStep (gen_id fresh k (jsonrpcStep d0) "id").1 with
    | .error e => .error e
    | .ok d2 => .ok (.jobj d2, (gen_id fresh k (jsonrpcStep d0) "id").2)
  | _ => .error .typeError

/-- The list comprehension [_make_json_rpc(req) for req in reqs]:
normalize each element in order, threading the uuid supply, propagating
the first exception. -/
def make_rpc_list (fresh : Nat → String) : Nat → List JVal → Except PyErr (List JVal × Nat)
  | k, [] => .ok ([], k)
  | k, r :: rs =>
    match make_json_rpc fresh k r with
    | .error e => .error e
    | .ok (r2, k2) =>
      match make_rpc_list fresh k2 rs with
      | .error e => .error e
      | .ok (rs2, k3) => .ok (r2 :: rs2, k3)

/-- The shape dispatch of _startup on the req value: a list
(type(reqs) is list) is normalized element-wise, anything else is
normalized as a single request. -/
def normalizeReqs (fresh : Nat → String) (k : Nat) : JVal → Except PyErr JVal
  | .jarr xs =>
    match make_rpc_list fresh k xs with
    | .error e => .error e
    | .ok (ys, _) => .ok (.jarr ys)
  | r =>
    match make_json_rpc fresh k r with
    | .error e => .error e
    | .ok (r2, _) => .ok r2

/-- The channel (re)creation step of _startup: remove each well-known
endpoint if it exists, then mkfifo both. -/
def makeFifos (fs : FS) : Except PyErr FS :=
  match fs.removeIfExists REQ_FIFO with
  | .error e => .error e
  | .ok fs1 =>
    match fs1.removeIfExists RESP_FIFO with
    | .error e => .error e
    | .ok fs2 =>
      match fs2.mkfifo REQ_FIFO with
      | .error e => .error e
      | .ok fs3 => fs3.mkfifo RESP_FIFO

/-- The string that gen_id leaves under a key: the coercion of an
existing value, or the first fresh identifier when the key is absent. -/
def assignedId (fresh : Nat → String) (d : Dict) : String :=
  match dlookup d "id" with
  | some x => pyStr x
  | none => fresh 0

/-- _startup: parse the inbound payload (input = none models
store.get_request or json.loads raising, which the source turns into
ParseError), assign the top-level id, record it on the store
(set_task_id), require a req field (else ParseError), normalize the
requests, recreate the channel endpoints and materialize the shim
(stack.copy_shim).  The returned Store and FS reflect the side effects
performed before any raise. -/
def startup (fresh : Nat → String) (input : Option JVal) (st : Store) (fs : FS) :
    Store × FS × Except PyErr JVal :=
  match input with
  | none => (st, fs, .error .parseError)
  | some inputJson =>
    match gen_idOnVal fresh 0 inputJson "id" with
    | .error e => (st, fs, .error e)
    | .ok p =>
      let st1 := { st with taskId := some ((dlookup p.1 "id").getD .jnull) }
      match dlookup p.1 "req" with
      | none => (st1, fs, .error .parseError)
      | some reqs =>
        match normalizeReqs fresh p.2 reqs with
        | .error e => (st1, fs, .error e)
        | .ok reqsN =>
          match makeFifos fs with
          | .error e => (st1, fs, .error e)
          | .ok fs4 => (st1, { fs4 with shimPresent := true }, .ok reqsN)

/-- _run_ext(method, params, req_id): ensure the per-task scratch
directory, write the request over the request channel, read and parse
the response (resp is the parsed response document; exitCode and
childOutput describe the shim subprocess), wait for the subprocess and
check its exit code, then apply the basic error handling to the
response.  Membership tests and string-keyed indexing on a non-dict
response raise TypeError in CPython, on every shape. -/
def run_ext (fs : FS) (method : String) (params : JVal) (req_id : String)
    (exitCode : Int) (childOutput : String) (resp : JVal) :
    FS × Except PyErr JVal :=
  let req_path := pathJoin STACKHUT_DIR req_id
  let fs1 := fs.mkdirIfMissing req_path
  let _req : Dict := [("method", .jstr method), ("params", params), ("req_id", .jstr req_id)]
  let p := Popen exitCode childOutput .inherit .toStdout
  (fs1,
    if p.returncode ≠ 0 then
      .error (.nonZeroExitError p.returncode p.stdout)
    else
      match resp with
      | .jobj d =>
        match dlookup d "error" with
        | some code =>
          if pyIntEq code ERR_METHOD_NOT_FOUND then
            .error (.serverError code
              (.jstr ("Method or service " ++ method ++ " not found")))
          else
            match dlookup d "msg" with
            | some m => .error (.serverError code m)
            | none => .error (.keyError "msg")
        | none =>
          match dlookup d "result" with
          | some r => .ok r
          | none => .error (.keyError "result")
      | _ => .error .typeError)

/-- The environment of one nested call: what the dispatcher passes to
the forwarder and how the external subprocess behaves on that call. -/
structure CallEnv where
  method : String
  params : JVal
  exitCode : Int
  childOutput : String
  resp : JVal

/-- Modelled from the spec: how the contract dispatcher absorbs one
forwarder outcome — a ServerError (method-not-found / remote error)
becomes a JSON-RPC error object in the aggregate result (not fatal),
every other exception escapes the dispatcher. -/
def dispatchStep (r : Except PyErr JVal) : Except PyErr JVal :=
  match r with
  | .error (.serverError code msg) => .ok (.jobj [("error", code), ("msg", msg)])
  | x => x

/-- Modelled from the spec: the contract dispatcher (barrister
Server.call, an external collaborator).  It invokes the forwarder
sequentially, once per nested call, always with the task identifier of
the top-level envelope, aggregating per-call results; an exception not
absorbed by dispatchStep aborts the dispatch. -/
def dispatch (taskId : String) (fs : FS) : List CallEnv → FS × Except PyErr (List JVal)
  | [] => (fs, .ok [])
  | c :: cs =>
    let r := run_ext fs c.method c.params taskId c.exitCode c.childOutput c.resp
    match dispatchStep r.2 with
    | .ok v =>
      match dispatch taskId r.1 cs with
      | (fs2, .ok vs) => (fs2, .ok (v :: vs))
      | (fs2, .error e) => (fs2, .error e)
    | .error e => (r.1, .error e)

/-- _shutdown(res): persist the response and the log artifact to the
store. -/
def shutdown (st : Store) (res : JVal) : Store :=
  { st with response := some res, savedFiles := LOGFILE :: st.savedFiles }

/-- The finally block of RunCmd.run: stack.del_shim() then three
unguarded os.remove calls.  The first removal that raises aborts the
rest; the raised exception is returned alongside the filesystem as it
then stands. -/
def cleanup (fs : FS) : FS × Option PyErr :=
  let fs0 := { fs with shimPresent := false }
  match fs0.removeFile REQ_FIFO with
  | .error e => (fs0, some e)
  | .ok fs1 =>
    match fs1.removeFile RESP_FIFO with
    | .error e => (fs1, some e)
    | .ok fs2 =>
      match fs2.removeFile LOGFILE with
      | .error e => (fs2, some e)
      | .ok fs3 => (fs3, none)

/-- Process outcome of one bridge invocation: a normal exit code (0 for
success, 1 when the except-handler caught a failure), or an exception
escaping the finally block itself. -/
inductive RunOutcome where
  | exitCode (c : Nat)
  | uncaught (e : PyErr)

/-- The try block of RunCmd.run: startup, dispatch via the contract
server with _run_ext as callback (passing the recorded task identifier),
and shutdown.  The Option PyErr component is the failure the
except-handler will log and convert to exit(1); none means success. -/
def tryPhase (fresh : Nat → String) (input : Option JVal) (calls : List CallEnv)
    (st : Store) (fs : FS) : Store × FS × Option PyErr :=
  match startup fresh input st fs with
  | (st1, fs1, .error e) => (st1, fs1, some e)
  | (st1, fs1, .ok _reqs) =>
    match dispatch (pyStr (st1.taskId.getD .jnull)) fs1 calls with
    | (fs2, .error e) => (st1, fs2, some e)
    | (fs2, .ok results) => (shutdown st1 (.jarr results), fs2, none)

/-- RunCmd.run: the try block, the except-handler that logs and converts
any failure to exit(1), and the finally block that always runs cleanup —
an exception raised by cleanup supersedes the pending outcome.  calls
lists the behaviour of each nested call the dispatcher issues. -/
def runBridge (fresh : Nat → String) (input : Option JVal) (calls : List CallEnv)
    (st : Store) (fs : FS) : Store × FS × RunOutcome :=
  match tryPhase fresh input calls st fs with
  | (st2, fs2, pending) =>
    match cleanup fs2 with
    | (fs3, some e) => (st2, fs3, .uncaught e)
    | (fs3, none) =>
      match pending with
      | none => (st2, fs3, .exitCode 0)
      | some _ => (st2, fs3, .exitCode 1)

/-! ## Dictionary lemmas -/

theorem dlookup_dinsert_self (d : Dict) (k : String) (v : JVal) :
    dlookup (dinsert d k v) k = some v := by
  induction d with
  | nil => simp [dinsert, dlookup]
  | cons hd tl ih =>
    obtain ⟨k0, v0⟩ := hd
    by_cases h : k0 = k
    · simp [dinsert, dlookup, h]
    · simp [dinsert, dlookup, h, ih]

theorem dlookup_dinsert_ne (d : Dict) (k key : String) (v : JVal) (h : k ≠ key) :
    dlookup (dinsert d k v) key = dlookup d key := by
  induction d with
  | nil => simp [dinsert, dlookup, h]
  | cons hd tl ih =>
    obtain ⟨k0, v0⟩ := hd
    by_cases h0 : k0 = k
    · subst h0
      simp [dinsert, dlookup, h]
    · simp [dinsert, dlookup, h0, ih]

theorem dinsert_lookup_self (d : Dict) (k : String) (v : JVal)
    (h : dlookup d k = some v) : dinsert d k v = d := by
  induction d with
  | nil => simp [dlookup] at h
  | cons hd tl ih =>
    obtain ⟨k0, v0⟩ := hd
    by_cases h0 : k0 = k
    · subst h0
      simp [dlookup] at h
      simp [dinsert, h]
    · simp [dlookup, h0] at h
      simp [dinsert, h0, ih h]

/-! ## gen_id lemmas -/

theorem gen_id_lookup_present (fresh : Nat → String) (k : Nat) (d : Dict) (v : String)
    (x : JVal) (h : dlookup d v = some x) :
    gen_id fresh k d v = (dinsert d v (.jstr (pyStr x)), k) := by
  simp [gen_id, h]

theorem gen_id_lookup_absent (fresh : Nat → String) (k : Nat) (d : Dict) (v : String)
    (h : dlookup d v = none) :
    gen_id fresh k d v = (dinsert d v (.jstr (fresh k)), k + 1) := by
  simp [gen_id, h]

theorem dlookup_gen_id_ne (fresh : Nat → String) (k : Nat) (d : Dict) (v key : String)
    (h : v ≠ key) :
    dlookup (gen_id fresh k d v).1 key = dlookup d key := by
  unfold gen_id
  cases hx : dlookup d v <;> simp [dlookup_dinsert_ne _ _ _ _ h]

theorem dlookup_gen_id_self (fresh : Nat → String) (k : Nat) (d : Dict) (v : String) :
    ∃ s, dlookup (gen_id fresh k d v).1 v = some (.jstr s) := by
  unfold gen_id
  cases hx : dlookup d v <;> exact ⟨_, dlookup_dinsert_self _ _ _⟩

/-! ## Claim theorems: the External Call Forwarder (C2, C4, C5, C6) -/

/-- C2: for every nested call, the forwarder checks the subprocess exit
code before inspecting the response object's error field: a non-zero
exit code always yields the subprocess error, whatever (well-formed)
response — including a well-formed error payload — was already read from
the response channel. -/
theorem C2_exit_code_supersedes_response (fs : FS) (method : String) (params : JVal)
    (req_id : String) (ec : Int) (co : String) (resp : JVal) (h : ec ≠ 0) :
    (run_ext fs method params req_id ec co resp).2
      = .error (.nonZeroExitError ec none) := by
  simp [run_ext, Popen, h]

theorem C2_witness :
    (run_ext ({} : FS) "Foo.bar" (.jarr []) "task1" 2 "out"
       (.jobj [("error", .jnum 99), ("msg", .jstr "boom")])).2
      = .error (.nonZeroExitError 2 none) :=
  C2_exit_code_supersedes_response ({} : FS) "Foo.bar" (.jarr []) "task1" 2 "out"
    (.jobj [("error", .jnum 99), ("msg", .jstr "boom")]) (by decide)

/-- C4 counterexample: gen_id on a container whose existing id is the
number 5 overwrites it with the string "5" — the existing value under
the key IS mutated (coerced in place), contrary to the claim. -/
theorem C4_counterexample :
    gen_id (fun _ => "fresh") 0 [("id", .jnum 5)] "id" = ([("id", .jstr "5")], 0)
    ∧ JVal.jstr "5" ≠ JVal.jnum 5 :=
  ⟨rfl, fun h => nomatch h⟩

/-- C4 (amended): on a container that already has a value x under the
key, gen_id stores str(x) and is idempotent — a second application
(with any uuid supply) stores the same identifier and changes nothing —
and when the existing value is already a string the container is left
entirely unchanged; a non-string value, however, is overwritten by its
string coercion. -/
theorem C4_gen_id_idempotent_but_coercing (fresh fresh2 : Nat → String) (k k2 : Nat)
    (d : Dict) (v : String) (x : JVal) (h : dlookup d v = some x) :
    gen_id fresh k d v = (dinsert d v (.jstr (pyStr x)), k)
    ∧ gen_id fresh2 k2 (dinsert d v (.jstr (pyStr x))) v
        = (dinsert d v (.jstr (pyStr x)), k2)
    ∧ (∀ s, x = .jstr s → dinsert d v (.jstr (pyStr x)) = d) := by
  refine ⟨gen_id_lookup_present _ _ _ _ _ h, ?_, ?_⟩
  · have h2 : dlookup (dinsert d v (.jstr (pyStr x))) v = some (.jstr (pyStr x)) :=
      dlookup_dinsert_self _ _ _
    rw [gen_id_lookup_present _ _ _ _ _ h2]
    rw [show pyStr (.jstr (pyStr x)) = pyStr x from rfl]
    rw [dinsert_lookup_self _ _ _ h2]
  · intro s hs
    subst hs
    exact dinsert_lookup_self _ _ _ h

theorem C4_witness :
    gen_id (fun _ => "u1") 3 [("id", .jstr "abc")] "id" = ([("id", .jstr "abc")], 3) :=
  (C4_gen_id_idempotent_but_coercing (fun _ => "u1") (fun _ => "u2") 3 7
      [("id", .jstr "abc")] "id" (.jstr "abc") rfl).1

/-- C5: the error raised on a non-zero exit carries the exit code but NO
captured output: Popen was invoked with stderr merged into stdout but
without stdout=PIPE, so p.stdout is None whatever the subprocess wrote —
the code contradicts the documented intent of capturing the merged
output.  Evaluated at a failing input (exit code 2, output written). -/
theorem C5_no_captured_output_on_failure :
    run_ext ({} : FS) "Foo.bar" (.jarr []) "task1" 2 "shim wrote this"
        (.jobj [("result", .jnull)])
      = ({ files := [], dirs := [".stackhut/task1"], shimPresent := false },
         .error (.nonZeroExitError 2 none))
    ∧ (Popen 2 "shim wrote this" .inherit .toStdout).stdout = none :=
  ⟨rfl, rfl⟩

/-- C6: with a zero exit code, a response carrying the reserved
method-not-found error code yields a server error naming the requested
method; any other error code yields a server error carrying the remote
code and msg verbatim; a response without an error field yields its
result field as the success value. -/
theorem C6_error_payload_mapping (fs : FS) (method : String) (params : JVal)
    (tid co : String) (d : Dict) :
    (∀ code, dlookup d "error" = some code →
        pyIntEq code ERR_METHOD_NOT_FOUND = true →
        (run_ext fs method params tid 0 co (.jobj d)).2
          = .error (.serverError code
              (.jstr ("Method or service " ++ method ++ " not found"))))
    ∧ (∀ code m, dlookup d "error" = some code →
        pyIntEq code ERR_METHOD_NOT_FOUND = false →
        dlookup d "msg" = some m →
        (run_ext fs method params tid 0 co (.jobj d)).2
          = .error (.serverError code m))
    ∧ (∀ r, dlookup d "error" = none → dlookup d "result" = some r →
        (run_ext fs method params tid 0 co (.jobj d)).2 = .ok r) := by
  refine ⟨?_, ?_, ?_⟩
  · intro code h1 h2
    simp [run_ext, Popen, h1, h2]
  · intro code m h1 h2 h3
    simp [run_ext, Popen, h1, h2, h3]
  · intro r h1 h2
    simp [run_ext, Popen, h1, h2]

theorem C6_witness :
    (run_ext ({} : FS) "Foo.bar" .jnull "t" 0 "" (.jobj [("error", .jnum (-32601))])).2
      = .error (.serverError (.jnum (-32601)) (.jstr "Method or service Foo.bar not found"))
    ∧ (run_ext ({} : FS) "Foo.bar" .jnull "t" 0 ""
        (.jobj [("error", .jnum 99), ("msg", .jstr "boom")])).2
      = .error (.serverError (.jnum 99) (.jstr "boom"))
    ∧ (run_ext ({} : FS) "Foo.bar" .jnull "t" 0 "" (.jobj [("result", .jstr "hi")])).2
      = .ok (.jstr "hi") := by
  refine ⟨?_, ?_, ?_⟩
  · exact (C6_error_payload_mapping ({} : FS) "Foo.bar" .jnull "t" ""
      [("error", .jnum (-32601))]).1 (.jnum (-32601)) rfl rfl
  · exact (C6_error_payload_mapping ({} : FS) "Foo.bar" .jnull "t" ""
      [("error", .jnum 99), ("msg", .jstr "boom")]).2.1 (.jnum 99) (.jstr "boom") rfl rfl rfl
  · exact (C6_error_payload_mapping ({} : FS) "Foo.bar" .jnull "t" ""
      [("result", .jstr "hi")]).2.2 (.jstr "hi") rfl rfl

/-! ## Filesystem and dispatcher lemmas -/

theorem run_ext_fst (fs : FS) (method : String) (params : JVal) (req_id : String)
    (ec : Int) (co : String) (resp : JVal) :
    (run_ext fs method params req_id ec co resp).1
      = fs.mkdirIfMissing (pathJoin STACKHUT_DIR req_id) := rfl

theorem mkdirIfMissing_files (fs : FS) (p : String) :
    (fs.mkdirIfMissing p).files = fs.files := by
  unfold FS.mkdirIfMissing
  split <;> rfl

theorem mkdirIfMissing_dirs (fs : FS) (p : String) :
    (fs.mkdirIfMissing p).dirs
      = if fs.existsPath p then fs.dirs else p :: fs.dirs := by
  unfold FS.mkdirIfMissing
  split <;> simp_all

theorem mkdirIfMissing_dirs_mono (fs : FS) (p q : String) (h : q ∈ fs.dirs) :
    q ∈ (fs.mkdirIfMissing p).dirs := by
  unfold FS.mkdirIfMissing
  split
  · exact h
  · exact List.mem_cons_of_mem _ h

theorem mkdirIfMissing_exists_self (fs : FS) (p : String) :
    (fs.mkdirIfMissing p).existsPath p = true := by
  unfold FS.mkdirIfMissing
  split <;> simp_all [FS.existsPath]

theorem mkdirIfMissing_of_exists (fs : FS) (p : String) (h : fs.existsPath p = true) :
    fs.mkdirIfMissing p = fs := by
  unfold FS.mkdirIfMissing
  simp [h]

theorem dispatch_fst_files (tid : String) (calls : List CallEnv) (fs : FS) :
    (dispatch tid fs calls).1.files = fs.files := by
  induction calls generalizing fs with
  | nil => rfl
  | cons c cs ih =>
    have hr : (run_ext fs c.method c.params tid c.exitCode c.childOutput c.resp).1.files
        = fs.files := by
      rw [run_ext_fst]
      exact mkdirIfMissing_files _ _
    simp only [dispatch]
    cases h2 : dispatchStep
        (run_ext fs c.method c.params tid c.exitCode c.childOutput c.resp).2 with
    | error e => simpa using hr
    | ok v =>
      rcases h3 : dispatch tid
          (run_ext fs c.method c.params tid c.exitCode c.childOutput c.resp).1 cs
        with ⟨fs2, dr⟩
      have h4 := ih (run_ext fs c.method c.params tid c.exitCode c.childOutput c.resp).1
      rw [h3] at h4
      cases dr <;> simpa [h3] using h4.trans hr

theorem dispatch_dirs_mono (tid : String) (calls : List CallEnv) (fs : FS) (q : String)
    (h : q ∈ fs.dirs) : q ∈ (dispatch tid fs calls).1.dirs := by
  induction calls generalizing fs with
  | nil => exact h
  | cons c cs ih =>
    have hr : q ∈ (run_ext fs c.method c.params tid c.exitCode c.childOutput c.resp).1.dirs := by
      rw [run_ext_fst]
      exact mkdirIfMissing_dirs_mono _ _ _ h
    simp only [dispatch]
    cases h2 : dispatchStep
        (run_ext fs c.method c.params tid c.exitCode c.childOutput c.resp).2 with
    | error e => simpa using hr
    | ok v =>
      rcases h3 : dispatch tid
          (run_ext fs c.method c.params tid c.exitCode c.childOutput c.resp).1 cs
        with ⟨fs2, dr⟩
      have h4 := ih (run_ext fs c.method c.params tid c.exitCode c.childOutput c.resp).1 hr
      rw [h3] at h4
      cases dr <;> simpa [h3] using h4

theorem dispatch_fst_of_exists (tid : String) (calls : List CallEnv) (fs : FS)
    (h : fs.existsPath (pathJoin STACKHUT_DIR tid) = true) :
    (dispatch tid fs calls).1 = fs := by
  induction calls with
  | nil => rfl
  | cons c cs ih =>
    have hr : (run_ext fs c.method c.params tid c.exitCode c.childOutput c.resp).1 = fs := by
      rw [run_ext_fst]
      exact mkdirIfMissing_of_exists _ _ h
    simp only [dispatch, hr]
    cases h2 : dispatchStep
        (run_ext fs c.method c.params tid c.exitCode c.childOutput c.resp).2 with
    | error e => simp [hr]
    | ok v =>
      rcases h3 : dispatch tid fs cs with ⟨fs2, dr⟩
      rw [h3] at ih
      cases dr <;> simpa [h3] using ih

/-! ## Claim theorem: scratch directory lifecycle (C7) -/

/-- C7: the forwarder's scratch-directory step is the guarded
mkdir-if-absent, so (i) on a filesystem where the per-task path already
exists the directory set is unchanged (idempotent, and total — the model
never fails on this step), and the path is created exactly when absent;
(ii) no sequence of forwarder calls ever removes an existing directory;
(iii) across a sequence of nested calls sharing one task identifier all
filesystem change happens in the first call — the rest leave the
filesystem exactly as the first call left it, so the scratch directory
is created at most once. -/
theorem C7_scratch_dir_created_once (fs : FS) (tid : String) (calls : List CallEnv)
    (c : CallEnv) :
    ((run_ext fs c.method c.params tid c.exitCode c.childOutput c.resp).1).dirs
      = (if fs.existsPath (pathJoin STACKHUT_DIR tid) then fs.dirs
         else pathJoin STACKHUT_DIR tid :: fs.dirs)
    ∧ (∀ q, q ∈ fs.dirs → q ∈ (dispatch tid fs calls).1.dirs)
    ∧ (dispatch tid fs (c :: calls)).1
        = (run_ext fs c.method c.params tid c.exitCode c.childOutput c.resp).1 := by
  refine ⟨?_, ?_, ?_⟩
  · rw [run_ext_fst]
    exact mkdirIfMissing_dirs _ _
  · intro q hq
    exact dispatch_dirs_mono tid calls fs q hq
  · have hex : ((run_ext fs c.method c.params tid c.exitCode c.childOutput
        c.resp).1).existsPath (pathJoin STACKHUT_DIR tid) = true := by
      rw [run_ext_fst]
      exact mkdirIfMissing_exists_self _ _
    simp only [dispatch]
    cases h2 : dispatchStep
        (run_ext fs c.method c.params tid c.exitCode c.childOutput c.resp).2 with
    | error e => simp
    | ok v =>
      rcases h3 : dispatch tid
          (run_ext fs c.method c.params tid c.exitCode c.childOutput c.resp).1 calls
        with ⟨fs2, dr⟩
      have h4 := dispatch_fst_of_exists tid calls _ hex
      rw [h3] at h4
      cases dr <;> simpa [h3] using h4

theorem C7_witness :
    ".stackhut/t" ∈ (dispatch "t"
      { files := [], dirs := [".stackhut/t"], shimPresent := false }
      [⟨"m", .jnull, 0, "", .jnull⟩]).1.dirs :=
  (C7_scratch_dir_created_once
      { files := [], dirs := [".stackhut/t"], shimPresent := false } "t"
      [⟨"m", .jnull, 0, "", .jnull⟩] ⟨"m", .jnull, 0, "", .jnull⟩).2.1
    ".stackhut/t" (by simp)

/-! ## Normalizer lemmas -/

theorem countDots_append (a b : String) :
    countDots (a ++ b) = countDots a + countDots b := by
  simp [countDots, String.data_append, List.filter_append]

theorem countDots_pos_of_mem (m : String) (h : dotChar ∈ m.data) :
    1 ≤ countDots m :=
  List.length_pos.mpr (List.ne_nil_of_mem (List.mem_filter.mpr ⟨h, by simp⟩))

theorem jsonrpcStep_lookup_ne (d : Dict) (key : String) (hk : key ≠ "jsonrpc") :
    dlookup (jsonrpcStep d) key = dlookup d key := by
  unfold jsonrpcStep
  split
  · rfl
  · exact dlookup_dinsert_ne _ _ _ _ (Ne.symm hk)

theorem methodStep_ok_method (d d2 : Dict) (h : methodStep d = .ok d2) :
    ∃ m, dlookup d2 "method" = some (.jstr m) ∧ 1 ≤ countDots m := by
  unfold methodStep at h
  rcases hm : dlookup d "method" with _ | x
  · rw [hm] at h
    exact absurd h (by simp)
  · rw [hm] at h
    cases x with
    | jstr m =>
      by_cases hd : dotChar ∈ m.data
      · simp only [hd, if_pos, Except.ok.injEq] at h
        subst h
        exact ⟨m, hm, countDots_pos_of_mem m hd⟩
      · simp only [hd, if_neg, Except.ok.injEq, not_false_eq_true] at h
        subst h
        refine ⟨default_service ++ "." ++ m, dlookup_dinsert_self _ _ _, ?_⟩
        rw [countDots_append]
        have h1 : countDots (default_service ++ ".") = 1 := by decide
        omega
    | jnull => exact absurd h (by simp)
    | jbool b => exact absurd h (by simp)
    | jnum n => exact absurd h (by simp)
    | jarr xs => exact absurd h (by simp)
    | jobj fs2 => exact absurd h (by simp)

theorem methodStep_ok_other (d d2 : Dict) (key : String) (h : methodStep d = .ok d2)
    (hk : key ≠ "method") : dlookup d2 key = dlookup d key := by
  unfold methodStep at h
  rcases hm : dlookup d "method" with _ | x
  · rw [hm] at h
    exact absurd h (by simp)
  · rw [hm] at h
    cases x with
    | jstr m =>
      by_cases hd : dotChar ∈ m.data
      · simp only [hd, if_pos, Except.ok.injEq] at h
        subst h
        rfl
      · simp only [hd, if_neg, Except.ok.injEq, not_false_eq_true] at h
        subst h
        exact dlookup_dinsert_ne _ _ _ _ (Ne.symm hk)
    | jnull => exact absurd h (by simp)
    | jbool b => exact absurd h (by simp)
    | jnum n => exact absurd h (by simp)
    | jarr xs => exact absurd h (by simp)
    | jobj fs2 => exact absurd h (by simp)

theorem make_json_rpc_ok (fresh : Nat → String) (k : Nat) (d : Dict) (r : JVal) (k2 : Nat)
    (h : make_json_rpc fresh k (.jobj d) = .ok (r, k2)) :
    ∃ d2, r = .jobj d2 ∧ methodStep (gen_id fresh k (jsonrpcStep d) "id").1 = .ok d2 := by
  simp only [make_json_rpc] at h
  rcases hm : methodStep (gen_id fresh k (jsonrpcStep d) "id").1 with e | d2
  · rw [hm] at h
    exact absurd h (by simp)
  · rw [hm] at h
    simp only [Except.ok.injEq, Prod.mk.injEq] at h
    exact ⟨d2, h.1.symm, rfl⟩

/-! ## Claim theorems: the Envelope Normalizer (C3, C9) -/

/-- C3 counterexample: an inbound request whose method already contains
two namespace separators and whose id is the empty string normalizes to
a method with two separators (not exactly one) and an empty id — both
conjuncts of the claim fail at this input. -/
theorem C3_counterexample :
    make_json_rpc (fun _ => "generated") 0
        (.jobj [("method", .jstr "a.b.c"), ("id", .jstr "")])
      = .ok (.jobj [("method", .jstr "a.b.c"), ("id", .jstr ""),
                    ("jsonrpc", .jstr "2.0")], 0)
    ∧ countDots "a.b.c" = 2 := by
  refine ⟨rfl, by decide⟩

/-- C3 (amended): every request object the normalizer produces has a
method with AT LEAST one namespace separator (exactly one is guaranteed
only when the inbound method had none), and its id is a non-empty string
provided the generated identifiers are non-empty and any pre-existing id
coerces to a non-empty string. -/
theorem C3_method_qualified_and_id_nonempty (fresh : Nat → String) (k k2 : Nat)
    (d : Dict) (r : JVal)
    (hfresh : ∀ n, fresh n ≠ "")
    (h : make_json_rpc fresh k (.jobj d) = .ok (r, k2)) :
    ∃ d2, r = .jobj d2
      ∧ (∃ m, dlookup d2 "method" = some (.jstr m) ∧ 1 ≤ countDots m)
      ∧ (∃ i, dlookup d2 "id" = some (.jstr i)
          ∧ ((∀ x, dlookup d "id" = some x → pyStr x ≠ "") → i ≠ "")) := by
  obtain ⟨d2, hr, hms⟩ := make_json_rpc_ok fresh k d r k2 h
  refine ⟨d2, hr, methodStep_ok_method _ _ hms, ?_⟩
  have hid2 : dlookup d2 "id" = dlookup (gen_id fresh k (jsonrpcStep d) "id").1 "id" :=
    methodStep_ok_other _ _ "id" hms (by decide)
  rcases hx : dlookup (jsonrpcStep d) "id" with _ | x
  · simp only [gen_id, hx] at hid2
    refine ⟨fresh k, ?_, fun _ => hfresh k⟩
    rw [hid2]
    exact dlookup_dinsert_self _ _ _
  · simp only [gen_id, hx] at hid2
    refine ⟨pyStr x, ?_, ?_⟩
    · rw [hid2]
      exact dlookup_dinsert_self _ _ _
    · intro hpre
      have hxd : dlookup d "id" = some x := by
        rw [← jsonrpcStep_lookup_ne d "id" (by decide)]
        exact hx
      exact hpre x hxd

theorem C3_witness :
    ∃ d2, JVal.jobj [("method", .jstr "Default.echo"), ("jsonrpc", .jstr "2.0"),
        ("id", .jstr "u0")] = .jobj d2
      ∧ (∃ m, dlookup d2 "method" = some (.jstr m) ∧ 1 ≤ countDots m)
      ∧ (∃ i, dlookup d2 "id" = some (.jstr i)
          ∧ ((∀ x, dlookup [("method", JVal.jstr "echo")] "id" = some x → pyStr x ≠ "")
              → i ≠ "")) :=
  C3_method_qualified_and_id_nonempty (fun _ => "u0") 0 1 [("method", .jstr "echo")]
    (.jobj [("method", .jstr "Default.echo"), ("jsonrpc", .jstr "2.0"), ("id", .jstr "u0")])
    (by intro n; show "u0" ≠ ""; decide) rfl

/-- C9: normalization is a pure per-element rewrite: a single request
object normalizes to a single object whose fields OTHER than jsonrpc, id
and method are looked up unchanged, and a request sequence normalizes
element-wise in order (Forall2 pairs position i of the input with
position i of the output, so length and order are preserved). -/
theorem C9_shape_and_frame (fresh : Nat → String) :
    (∀ k d r k2, make_json_rpc fresh k (.jobj d) = .ok (r, k2) →
      ∃ d2, r = .jobj d2
        ∧ ∀ key, key ≠ "jsonrpc" → key ≠ "id" → key ≠ "method" →
            dlookup d2 key = dlookup d key)
    ∧ (∀ k xs ys k2, make_rpc_list fresh k xs = .ok (ys, k2) →
        List.Forall₂ (fun x y => ∃ kA kB, make_json_rpc fresh kA x = .ok (y, kB)) xs ys) := by
  constructor
  · intro k d r k2 h
    obtain ⟨d2, hr, hms⟩ := make_json_rpc_ok fresh k d r k2 h
    refine ⟨d2, hr, ?_⟩
    intro key h1 h2 h3
    rw [methodStep_ok_other _ _ key hms h3]
    rw [dlookup_gen_id_ne fresh k (jsonrpcStep d) "id" key (Ne.symm h2)]
    exact jsonrpcStep_lookup_ne d key h1
  · intro k xs
    induction xs generalizing k with
    | nil =>
      intro ys k2 h
      simp only [make_rpc_list, Except.ok.injEq, Prod.mk.injEq] at h
      obtain ⟨h1, _⟩ := h
      subst h1
      exact List.Forall₂.nil
    | cons x xs ih =>
      intro ys k2 h
      simp only [make_rpc_list] at h
      cases h1 : make_json_rpc fresh k x with
      | error e =>
        rw [h1] at h
        exact absurd h (by simp)
      | ok p =>
        obtain ⟨r2, kk⟩ := p
        simp only [h1] at h
        cases h2 : make_rpc_list fresh kk xs with
        | error e =>
          simp only [h2] at h
          exact absurd h (by simp)
        | ok q =>
          obtain ⟨rs2, k3⟩ := q
          simp only [h2, Except.ok.injEq, Prod.mk.injEq] at h
          obtain ⟨hys, _⟩ := h
          subst hys
          exact List.Forall₂.cons ⟨k, kk, h1⟩ (ih kk rs2 k3 h2)

theorem C9_witness :
    ∃ d2, JVal.jobj [("method", .jstr "Foo.bar"), ("extra", .jnum 7),
        ("jsonrpc", .jstr "2.0"), ("id", .jstr "w0")] = .jobj d2
      ∧ ∀ key, key ≠ "jsonrpc" → key ≠ "id" → key ≠ "method" →
          dlookup d2 key
            = dlookup [("method", JVal.jstr "Foo.bar"), ("extra", JVal.jnum 7)] key :=
  (C9_shape_and_frame (fun _ => "w0")).1 0
    [("method", .jstr "Foo.bar"), ("extra", .jnum 7)]
    (.jobj [("method", .jstr "Foo.bar"), ("extra", .jnum 7),
      ("jsonrpc", .jstr "2.0"), ("id", .jstr "w0")]) 1 rfl

/-! ## No startup error site other than the two parse sites raises ParseError -/

theorem methodStep_ne_parse (d : Dict) : methodStep d ≠ .error .parseError := by
  unfold methodStep
  split
  · split <;> simp
  · simp
  · simp

theorem make_json_rpc_ne_parse (fresh : Nat → String) (k : Nat) (req : JVal) :
    make_json_rpc fresh k req ≠ .error .parseError := by
  cases req with
  | jobj d =>
    simp only [make_json_rpc]
    cases h : methodStep (gen_id fresh k (jsonrpcStep d) "id").1 with
    | error e =>
      simp only [h]
      intro hc
      simp only [Except.error.injEq] at hc
      exact methodStep_ne_parse _ (hc ▸ h)
    | ok d2 =>
      simp only [h]
      simp
  | jnull => simp [make_json_rpc]
  | jbool b => simp [make_json_rpc]
  | jnum n => simp [make_json_rpc]
  | jstr s => simp [make_json_rpc]
  | jarr xs => simp [make_json_rpc]

theorem make_rpc_list_ne_parse (fresh : Nat → String) (k : Nat) (xs : List JVal) :
    make_rpc_list fresh k xs ≠ .error .parseError := by
  induction xs generalizing k with
  | nil => simp [make_rpc_list]
  | cons x xs ih =>
    simp only [make_rpc_list]
    cases h1 : make_json_rpc fresh k x with
    | error e =>
      simp only [h1]
      intro hc
      simp only [Except.error.injEq] at hc
      exact make_json_rpc_ne_parse fresh k x (hc ▸ h1)
    | ok p =>
      obtain ⟨r2, k2⟩ := p
      simp only [h1]
      cases h2 : make_rpc_list fresh k2 xs with
      | error e =>
        simp only [h2]
        intro hc
        simp only [Except.error.injEq] at hc
        exact ih k2 (hc ▸ h2)
      | ok q =>
        obtain ⟨rs2, k3⟩ := q
        simp only [h2]
        simp

theorem normalizeReqs_ne_parse (fresh : Nat → String) (k : Nat) (r : JVal) :
    normalizeReqs fresh k r ≠ .error .parseError := by
  cases r with
  | jarr xs =>
    simp only [normalizeReqs]
    cases h : make_rpc_list fresh k xs with
    | error e =>
      simp only [h]
      intro hc
      simp only [Except.error.injEq] at hc
      exact make_rpc_list_ne_parse fresh k xs (hc ▸ h)
    | ok q =>
      obtain ⟨ys, k3⟩ := q
      simp only [h]
      simp
  | jobj d =>
    simp only [normalizeReqs]
    cases h : make_json_rpc fresh k (.jobj d) with
    | error e =>
      simp only [h]
      intro hc
      simp only [Except.error.injEq] at hc
      exact make_json_rpc_ne_parse fresh k _ (hc ▸ h)
    | ok p =>
      obtain ⟨r2, k2⟩ := p
      simp only [h]
      simp
  | jnull => simp [normalizeReqs, make_json_rpc]
  | jbool b => simp [normalizeReqs, make_json_rpc]
  | jnum n => simp [normalizeReqs, make_json_rpc]
  | jstr s => simp [normalizeReqs, make_json_rpc]

theorem removeFile_ne_parse (fs : FS) (p : String) :
    fs.removeFile p ≠ .error .parseError := by
  unfold FS.removeFile
  split
  · simp
  · split <;> simp

theorem removeIfExists_ne_parse (fs : FS) (p : String) :
    fs.removeIfExists p ≠ .error .parseError := by
  unfold FS.removeIfExists
  split
  · exact removeFile_ne_parse fs p
  · simp

theorem mkfifo_ne_parse (fs : FS) (p : String) : fs.mkfifo p ≠ .error .parseError := by
  unfold FS.mkfifo
  split <;> simp

theorem makeFifos_ne_parse (fs : FS) : makeFifos fs ≠ .error .parseError := by
  unfold makeFifos
  cases h1 : fs.removeIfExists REQ_FIFO with
  | error e =>
    simp only [h1]
    intro hc
    simp only [Except.error.injEq] at hc
    exact removeIfExists_ne_parse fs REQ_FIFO (hc ▸ h1)
  | ok fs1 =>
    simp only [h1]
    cases h2 : fs1.removeIfExists RESP_FIFO with
    | error e =>
      simp only [h2]
      intro hc
      simp only [Except.error.injEq] at hc
      exact removeIfExists_ne_parse fs1 RESP_FIFO (hc ▸ h2)
    | ok fs2 =>
      simp only [h2]
      cases h3 : fs2.mkfifo REQ_FIFO with
      | error e =>
        simp only [h3]
        intro hc
        simp only [Except.error.injEq] at hc
        exact mkfifo_ne_parse fs2 REQ_FIFO (hc ▸ h3)
      | ok fs3 =>
        simp only [h3]
        exact mkfifo_ne_parse fs3 RESP_FIFO

/-! ## Claim theorems: startup error behaviour (C8, C10) -/

/-- C8 counterexample: the payload [] is valid JSON and lacks a req
field, yet startup fails with a TypeError (string-keyed access on a
list), not with the malformed-request error the claim requires for
exactly this situation. -/
theorem C8_counterexample :
    (startup (fun _ => "u") (some (.jarr [])) {} {}).2.2 = .error .typeError
    ∧ PyErr.typeError ≠ PyErr.parseError :=
  ⟨rfl, fun h => nomatch h⟩

/-- C8 (amended): startup raises the malformed-request error exactly
when the payload is not valid JSON (or retrieval fails) or parses to a
JSON OBJECT lacking a req field; payloads parsing to a non-object fail
with a TypeError before the req check, and an object payload carrying a
req field never produces a malformed-request error (normalization
failures surface as other exception types). -/
theorem C8_parse_error_iff (fresh : Nat → String) (input : Option JVal) (st : Store) (fs : FS) :
    (startup fresh input st fs).2.2 = .error .parseError
    ↔ (input = none ∨ ∃ d, input = some (.jobj d) ∧ dlookup d "req" = none) := by
  constructor
  · intro h
    cases input with
    | none => exact Or.inl rfl
    | some j =>
      cases j with
      | jobj d =>
        refine Or.inr ⟨d, rfl, ?_⟩
        simp only [startup, gen_idOnVal] at h
        cases hq : dlookup (gen_id fresh 0 d "id").1 "req" with
        | none =>
          rw [← dlookup_gen_id_ne fresh 0 d "id" "req" (by decide)]
          exact hq
        | some reqs =>
          exfalso
          simp only [hq] at h
          cases hn : normalizeReqs fresh (gen_id fresh 0 d "id").2 reqs with
          | error e =>
            simp [hn] at h
            exact normalizeReqs_ne_parse _ _ _ (h ▸ hn)
          | ok reqsN =>
            cases hf : makeFifos fs with
            | error e =>
              simp [hn, hf] at h
              exact makeFifos_ne_parse _ (h ▸ hf)
            | ok fs4 =>
              simp [hn, hf] at h
      | jnull => simp [startup, gen_idOnVal] at h
      | jbool b => simp [startup, gen_idOnVal] at h
      | jnum n => simp [startup, gen_idOnVal] at h
      | jstr s => simp [startup, gen_idOnVal] at h
      | jarr xs => simp [startup, gen_idOnVal] at h
  · intro h
    rcases h with h | ⟨d, hin, hreq⟩
    · subst h
      rfl
    · subst hin
      simp only [startup, gen_idOnVal]
      have hq : dlookup (gen_id fresh 0 d "id").1 "req" = none := by
        rw [dlookup_gen_id_ne fresh 0 d "id" "req" (by decide)]
        exact hreq
      simp [hq]

theorem C8_witness :
    (startup (fun _ => "u") (some (.jobj [("a", .jnull)])) {} {}).2.2
      = .error .parseError :=
  (C8_parse_error_iff (fun _ => "u") (some (.jobj [("a", .jnull)])) {} {}).mpr
    (Or.inr ⟨[("a", .jnull)], rfl, rfl⟩)

/-- C10: on an object payload without a req field, startup still assigns
the top-level id (generating or coercing it) and records it on the Store
via set_task_id BEFORE raising the malformed-request error — the Store
mutation survives the failure, so the failure is not atomic with respect
to the Store. -/
theorem C10_task_id_recorded_before_failure (fresh : Nat → String) (st : Store) (fs : FS)
    (d : Dict) (h : dlookup d "req" = none) :
    startup fresh (some (.jobj d)) st fs
      = ({ st with taskId := some (.jstr (assignedId fresh d)) }, fs, .error .parseError) := by
  simp only [startup, gen_idOnVal]
  unfold assignedId
  cases hx : dlookup d "id" with
  | some x =>
    have hq : dlookup (dinsert d "id" (.jstr (pyStr x))) "req" = none := by
      rw [dlookup_dinsert_ne d "id" "req" _ (by decide)]
      exact h
    simp [gen_id, hx, dlookup_dinsert_self, hq]
  | none =>
    have hq : dlookup (dinsert d "id" (.jstr (fresh 0))) "req" = none := by
      rw [dlookup_dinsert_ne d "id" "req" _ (by decide)]
      exact h
    simp [gen_id, hx, dlookup_dinsert_self, hq]

theorem C10_witness :
    startup (fun _ => "t0") (some (.jobj [])) {} {}
      = ({ taskId := some (.jstr "t0"), response := none, savedFiles := [] },
         ({} : FS), .error .parseError) :=
  C10_task_id_recorded_before_failure (fun _ => "t0") {} {} [] rfl

/-! ## Startup and cleanup filesystem lemmas -/

theorem mkfifo_ok_files (fs g : FS) (p : String) (h : fs.mkfifo p = .ok g) :
    g.files = p :: fs.files := by
  unfold FS.mkfifo at h
  split at h
  · exact absurd h (by simp)
  · injection h with h
    subst h
    rfl

theorem removeIfExists_ok_mem (fs g : FS) (p q : String) (hq : q ∈ fs.files) (hne : q ≠ p)
    (h : fs.removeIfExists p = .ok g) : q ∈ g.files := by
  unfold FS.removeIfExists FS.removeFile at h
  split at h
  · split at h
    · injection h with h
      subst h
      simp [List.mem_filter, hq, hne]
    · split at h <;> exact absurd h (by simp)
  · injection h with h
    subst h
    exact hq

theorem makeFifos_ok_mem (fs g : FS) (h : makeFifos fs = .ok g) :
    REQ_FIFO ∈ g.files ∧ RESP_FIFO ∈ g.files
    ∧ (LOGFILE ∈ fs.files → LOGFILE ∈ g.files) := by
  unfold makeFifos at h
  cases h1 : fs.removeIfExists REQ_FIFO with
  | error e =>
    simp only [h1] at h
    exact absurd h (by simp)
  | ok fs1 =>
    simp only [h1] at h
    cases h2 : fs1.removeIfExists RESP_FIFO with
    | error e =>
      simp only [h2] at h
      exact absurd h (by simp)
    | ok fs2 =>
      simp only [h2] at h
      cases h3 : fs2.mkfifo REQ_FIFO with
      | error e =>
        simp only [h3] at h
        exact absurd h (by simp)
      | ok fs3 =>
        simp only [h3] at h
        have hf3 := mkfifo_ok_files _ _ _ h3
        have hg := mkfifo_ok_files _ _ _ h
        refine ⟨?_, ?_, ?_⟩
        · rw [hg, hf3]
          exact List.mem_cons_of_mem _ (List.mem_cons_self _ _)
        · rw [hg]
          exact List.mem_cons_self _ _
        · intro hl
          have hl1 : LOGFILE ∈ fs1.files :=
            removeIfExists_ok_mem _ _ _ _ hl (by decide) h1
          have hl2 : LOGFILE ∈ fs2.files :=
            removeIfExists_ok_mem _ _ _ _ hl1 (by decide) h2
          rw [hg, hf3]
          exact List.mem_cons_of_mem _ (List.mem_cons_of_mem _ hl2)

theorem startup_ok_fs (fresh : Nat → String) (input : Option JVal) (st st1 : Store)
    (fs fs1 : FS) (r : JVal)
    (h : startup fresh input st fs = (st1, fs1, .ok r)) :
    ∃ g, makeFifos fs = .ok g ∧ fs1 = { g with shimPresent := true } := by
  cases input with
  | none => exact absurd h (by simp [startup])
  | some j =>
    cases j with
    | jobj d =>
      simp only [startup, gen_idOnVal] at h
      cases hq : dlookup (gen_id fresh 0 d "id").1 "req" with
      | none =>
        simp only [hq] at h
        exact absurd h (by simp)
      | some reqs =>
        simp only [hq] at h
        cases hn : normalizeReqs fresh (gen_id fresh 0 d "id").2 reqs with
        | error e =>
          simp only [hn] at h
          exact absurd h (by simp)
        | ok reqsN =>
          simp only [hn] at h
          cases hf : makeFifos fs with
          | error e =>
            simp only [hf] at h
            exact absurd h (by simp)
          | ok g =>
            simp only [hf] at h
            refine ⟨g, rfl, ?_⟩
            have h2 := congrArg (fun t : Store × FS × Except PyErr JVal => t.2.1) h
            simpa using h2.symm
    | jnull => exact absurd h (by simp [startup, gen_idOnVal])
    | jbool b => exact absurd h (by simp [startup, gen_idOnVal])
    | jnum n => exact absurd h (by simp [startup, gen_idOnVal])
    | jstr s => exact absurd h (by simp [startup, gen_idOnVal])
    | jarr xs => exact absurd h (by simp [startup, gen_idOnVal])

theorem removeFile_ok_of_mem (f : FS) (p : String) (h : p ∈ f.files) :
    f.removeFile p = .ok { f with files := f.files.filter (fun q => q != p) } := by
  unfold FS.removeFile
  simp [h]

theorem removeFile_ok_mem_iff (f g : FS) (p : String) (h : f.removeFile p = .ok g) :
    ∀ q, q ∈ g.files ↔ (q ∈ f.files ∧ q ≠ p) := by
  unfold FS.removeFile at h
  split at h
  · injection h with h
    subst h
    intro q
    simp [List.mem_filter]
  · split at h <;> exact absurd h (by simp)

theorem cleanup_removes_all (f : FS) (h1 : REQ_FIFO ∈ f.files) (h2 : RESP_FIFO ∈ f.files)
    (h3 : LOGFILE ∈ f.files) :
    (cleanup f).2 = none
    ∧ (∀ q, q ∈ (cleanup f).1.files ↔
        (q ∈ f.files ∧ q ≠ REQ_FIFO ∧ q ≠ RESP_FIFO ∧ q ≠ LOGFILE)) := by
  simp only [cleanup]
  cases hr1 : FS.removeFile { f with shimPresent := false } REQ_FIFO with
  | error e =>
    rw [removeFile_ok_of_mem { f with shimPresent := false } REQ_FIFO h1] at hr1
    exact absurd hr1 (by simp)
  | ok f1 =>
    simp only [hr1]
    have hm1 := removeFile_ok_mem_iff _ _ _ hr1
    have h2b : RESP_FIFO ∈ f1.files := (hm1 RESP_FIFO).mpr ⟨h2, by decide⟩
    cases hr2 : FS.removeFile f1 RESP_FIFO with
    | error e =>
      rw [removeFile_ok_of_mem f1 RESP_FIFO h2b] at hr2
      exact absurd hr2 (by simp)
    | ok f2 =>
      simp only [hr2]
      have hm2 := removeFile_ok_mem_iff _ _ _ hr2
      have h3b : LOGFILE ∈ f2.files :=
        (hm2 LOGFILE).mpr ⟨(hm1 LOGFILE).mpr ⟨h3, by decide⟩, by decide⟩
      cases hr3 : FS.removeFile f2 LOGFILE with
      | error e =>
        rw [removeFile_ok_of_mem f2 LOGFILE h3b] at hr3
        exact absurd hr3 (by simp)
      | ok f3 =>
        simp only [hr3]
        have hm3 := removeFile_ok_mem_iff _ _ _ hr3
        refine ⟨by simp, ?_⟩
        intro q
        constructor
        · intro hq
          obtain ⟨hq2, hql⟩ := (hm3 q).mp hq
          obtain ⟨hq1, hqr⟩ := (hm2 q).mp hq2
          obtain ⟨hq0, hqq⟩ := (hm1 q).mp hq1
          exact ⟨hq0, hqq, hqr, hql⟩
        · rintro ⟨hq0, hqq, hqr, hql⟩
          exact (hm3 q).mpr ⟨(hm2 q).mpr ⟨(hm1 q).mpr ⟨hq0, hqq⟩, hqr⟩, hql⟩

/-! ## Claim theorems: bridge cleanup (C1) -/

theorem runBridge_eq (fresh : Nat → String) (input : Option JVal) (calls : List CallEnv)
    (st : Store) (fs : FS) (st2 : Store) (fs2 : FS) (pending : Option PyErr)
    (f3 : FS) (copt : Option PyErr)
    (h1 : tryPhase fresh input calls st fs = (st2, fs2, pending))
    (h2 : cleanup fs2 = (f3, copt)) :
    runBridge fresh input calls st fs
      = (st2, f3,
         match copt with
         | some e => .uncaught e
         | none =>
           match pending with
           | none => .exitCode 0
           | some _ => .exitCode 1) := by
  cases copt with
  | some e => simp [runBridge, h1, h2]
  | none => cases pending <;> simp [runBridge, h1, h2]

/-- C1 counterexample: a startup failure before channel creation (here:
an unparseable payload) reaches the finally block with the request
channel absent; the unguarded os.remove raises FileNotFoundError — the
cleanup DOES raise for an absent file — and the remaining removals are
skipped, so a stale response-channel endpoint survives the invocation on
disk. -/
theorem C1_counterexample :
    ((runBridge (fun _ => "u") none []
        {} { files := [RESP_FIFO, LOGFILE], dirs := [], shimPresent := false }).2.2
      = RunOutcome.uncaught (.fileNotFoundError REQ_FIFO))
    ∧ RESP_FIFO ∈ ((runBridge (fun _ => "u") none []
        {} { files := [RESP_FIFO, LOGFILE], dirs := [], shimPresent := false }).2.1).files :=
  ⟨rfl, by decide⟩

/-- C1 (amended): on every invocation whose startup phase completes
(through channel creation) and where the log artifact exists, the
cleanup phase removes both well-known channel endpoints and the log
artifact, afterwards neither channel path exists on disk, and the
process exits normally (0 on success, 1 on a caught failure).  The
original claim's tolerance clause is corrected: cleanup's removals are
unguarded, so on exits where an endpoint is already absent cleanup
raises FileNotFoundError and skips the remaining removals (see the
counterexample). -/
theorem C1_cleanup_after_successful_startup (fresh : Nat → String) (input : Option JVal)
    (calls : List CallEnv) (st : Store) (fs : FS) (st1 : Store) (fs1 : FS) (r : JVal)
    (hs : startup fresh input st fs = (st1, fs1, .ok r))
    (hl : LOGFILE ∈ fs.files) :
    REQ_FIFO ∉ ((runBridge fresh input calls st fs).2.1).files
    ∧ RESP_FIFO ∉ ((runBridge fresh input calls st fs).2.1).files
    ∧ LOGFILE ∉ ((runBridge fresh input calls st fs).2.1).files
    ∧ ((runBridge fresh input calls st fs).2.2 = .exitCode 0
       ∨ (runBridge fresh input calls st fs).2.2 = .exitCode 1) := by
  obtain ⟨g, hg, hfs1⟩ := startup_ok_fs fresh input st st1 fs fs1 r hs
  obtain ⟨hgreq, hgresp, hglog⟩ := makeFifos_ok_mem fs g hg
  have hreq1 : REQ_FIFO ∈ fs1.files := by rw [hfs1]; exact hgreq
  have hresp1 : RESP_FIFO ∈ fs1.files := by rw [hfs1]; exact hgresp
  have hlog1 : LOGFILE ∈ fs1.files := by rw [hfs1]; exact hglog hl
  rcases hd : dispatch (pyStr (st1.taskId.getD .jnull)) fs1 calls with ⟨fs2, dres⟩
  have hfiles2 : fs2.files = fs1.files := by
    have hx := dispatch_fst_files (pyStr (st1.taskId.getD .jnull)) calls fs1
    rw [hd] at hx
    exact hx
  have hreq2 : REQ_FIFO ∈ fs2.files := hfiles2 ▸ hreq1
  have hresp2 : RESP_FIFO ∈ fs2.files := hfiles2 ▸ hresp1
  have hlog2 : LOGFILE ∈ fs2.files := hfiles2 ▸ hlog1
  obtain ⟨hcl2, hclm⟩ := cleanup_removes_all fs2 hreq2 hresp2 hlog2
  rcases hc : cleanup fs2 with ⟨f3, pend⟩
  rw [hc] at hcl2 hclm
  have hpend : pend = none := hcl2
  subst hpend
  have hnotreq : REQ_FIFO ∉ f3.files := fun hmem => ((hclm REQ_FIFO).mp hmem).2.1 rfl
  have hnotresp : RESP_FIFO ∉ f3.files := fun hmem => ((hclm RESP_FIFO).mp hmem).2.2.1 rfl
  have hnotlog : LOGFILE ∉ f3.files := fun hmem => ((hclm LOGFILE).mp hmem).2.2.2 rfl
  cases dres with
  | ok results =>
    have htry : tryPhase fresh input calls st fs
        = (shutdown st1 (.jarr results), fs2, none) := by
      simp only [tryPhase, hs, hd]
    have hrb := runBridge_eq fresh input calls st fs _ _ _ f3 none htry hc
    rw [hrb]
    exact ⟨hnotreq, hnotresp, hnotlog, Or.inl rfl⟩
  | error e =>
    have htry : tryPhase fresh input calls st fs = (st1, fs2, some e) := by
      simp only [tryPhase, hs, hd]
    have hrb := runBridge_eq fresh input calls st fs _ _ _ f3 none htry hc
    rw [hrb]
    exact ⟨hnotreq, hnotresp, hnotlog, Or.inr rfl⟩

theorem C1_witness :
    REQ_FIFO ∉ ((runBridge (fun _ => "w9")
        (some (.jobj [("req", .jobj [("method", .jstr "echo")])])) []
        {} { files := [LOGFILE], dirs := [], shimPresent := false }).2.1).files
    ∧ RESP_FIFO ∉ ((runBridge (fun _ => "w9")
        (some (.jobj [("req", .jobj [("method", .jstr "echo")])])) []
        {} { files := [LOGFILE], dirs := [], shimPresent := false }).2.1).files
    ∧ LOGFILE ∉ ((runBridge (fun _ => "w9")
        (some (.jobj [("req", .jobj [("method", .jstr "echo")])])) []
        {} { files := [LOGFILE], dirs := [], shimPresent := false }).2.1).files
    ∧ (((runBridge (fun _ => "w9")
        (some (.jobj [("req", .jobj [("method", .jstr "echo")])])) []
        {} { files := [LOGFILE], dirs := [], shimPresent := false }).2.2
          = RunOutcome.exitCode 0)
       ∨ ((runBridge (fun _ => "w9")
        (some (.jobj [("req", .jobj [("method", .jstr "echo")])])) []
        {} { files := [LOGFILE], dirs := [], shimPresent := false }).2.2
          = RunOutcome.exitCode 1)) :=
  C1_cleanup_after_successful_startup (fun _ => "w9")
    (some (.jobj [("req", .jobj [("method", .jstr "echo")])])) []
    {} { files := [LOGFILE], dirs := [], shimPresent := false } _ _ _ rfl (by simp)
